import Mathlib

/-!
Shallow embedding of the `genes` crate: a small genetic-algorithm library
written in Rust (src/src/genes.rs, src/src/individual.rs, src/src/lib.rs;
lib.rs inlines its own copies of `Genes` and `Individual`, textually
identical to the standalone files).

Modelling conventions:
* A `Vec<u8>` is a `List Nat` whose elements are intended to be `< 256`;
  theorems that need the byte bound carry it as a hypothesis.
* `usize` arithmetic that can wrap is modelled explicitly (`usizeSub`,
  `% W` with `W = 2^64`): release-mode two's-complement wrapping.  The one
  place this matters (`g16`/`g32`/`g64`/`g128` on short buffers) panics in
  both profiles: in release the wrapped guard passes and the byte indexing
  is out of bounds, in debug the subtraction itself aborts.
* A computation that can panic returns an `Option`, `none` marking the
  panic.  A diverging loop (`while parent1_idx == parent2_idx { ... }`) is
  given explicit fuel; divergence means `none` for every fuel.
* `f64` fitness values are modelled as `Int`: the claims under study only
  use the order on non-NaN scores, which `Int` reflects; `Individual.score`
  starts at `0` (`0.0` in the source) and the `best` sentinel is `-1`
  (`-1.0`).  The mutation rate is carried as a `ℚ` field; it only feeds
  `gen_bool`, whose outcomes are part of the RNG oracle below.
* `SmallRng` is modelled as an oracle: a stream `nats : Nat → Nat` for the
  `gen_range(0..k)` draws (the k-th call returns `nats k % bound`, which
  ranges over every value a uniform draw can produce) and a stream
  `coins : Nat → Bool` for the `gen_bool` draws, each consumed by call
  count.  Every execution of the real program is some instantiation of the
  two streams.
-/

namespace GenesLib

/-- The modulus of `usize` arithmetic on a 64-bit target. -/
def W : Nat := 2 ^ 64

/-- Wrapping (release-mode) `usize` subtraction.  For `b ≤ a` it is plain
subtraction; for `a < b` (with `a < 2^64`, `b ≤ 2^64`) the wrapped value is
`a + (2^64 - b)`. -/
def usizeSub (a b : Nat) : Nat := if b ≤ a then a - b else a + (W - b)

/-- `struct Genes { inner: Vec<u8> }`. -/
structure Genes where
  inner : List Nat
deriving DecidableEq

namespace Genes

/-- `Genes::new(n)`: `vec![0u8; (n / 8) as usize]` — note the *floor*
division `n / 8` in the source. -/
def new (n : Nat) : Genes := ⟨List.replicate (n / 8) 0⟩

/-- `Genes::new_with_genes(genes)`: wraps the byte vector verbatim. -/
def newWithGenes (genes : List Nat) : Genes := ⟨genes⟩

/-- `Genes::get(idx)`: `bucket = idx / 8`, `loc = idx & 0b111`; returns
`(inner[bucket] >> loc) & 1` when `bucket` is in range, else `0`. -/
def get (g : Genes) (idx : Nat) : Nat :=
  if _h : idx / 8 < g.inner.length then
    (g.inner[idx / 8] >>> (idx &&& 7)) &&& 1
  else 0

/-- `Genes::set(idx)`: `inner[bucket] |= 1 << loc` when in range, else
no-op. -/
def set (g : Genes) (idx : Nat) : Genes :=
  if _h : idx / 8 < g.inner.length then
    ⟨g.inner.set (idx / 8) (g.inner[idx / 8] ||| (1 <<< (idx &&& 7)))⟩
  else g

/-- `Genes::clear(idx)`: `inner[bucket] &= !(1 << loc)`; the `u8`
complement `!x` is `255 ^ x`. -/
def clear (g : Genes) (idx : Nat) : Genes :=
  if _h : idx / 8 < g.inner.length then
    ⟨g.inner.set (idx / 8) (g.inner[idx / 8] &&& (255 ^^^ (1 <<< (idx &&& 7))))⟩
  else g

/-- `Genes::flip(idx)`: `inner[bucket] ^= 1 << loc` when in range. -/
def flip (g : Genes) (idx : Nat) : Genes :=
  if _h : idx / 8 < g.inner.length then
    ⟨g.inner.set (idx / 8) (g.inner[idx / 8] ^^^ (1 <<< (idx &&& 7)))⟩
  else g

/-- `Genes::wipe()`: zero every byte. -/
def wipe (g : Genes) : Genes := ⟨g.inner.map fun _ => 0⟩

/-- `Genes::g8(loc)`: guarded by `loc < inner.len()`, hence total. -/
def g8 (g : Genes) (loc : Nat) : Option Nat :=
  if _h : loc < g.inner.length then some g.inner[loc] else some 0

/-- `Genes::g16(loc)`: `loc = loc * 2`; guard `loc < inner.len() - 1` uses
wrapping `usize` subtraction, and the two-byte read panics (`none`) when an
index is out of bounds — reachable exactly when the guard underflowed. -/
def g16 (g : Genes) (loc : Nat) : Option Nat :=
  let l := loc * 2 % W
  if l < usizeSub g.inner.length 1 then
    if l + 1 < g.inner.length then
      some ((0 ||| (g.inner.getD l 0 <<< 8)) ||| g.inner.getD (l + 1) 0)
    else none
  else some 0

/-- `Genes::g32(loc)`: guard `loc * 4 < inner.len() - 3`, four-byte
big-endian read. -/
def g32 (g : Genes) (loc : Nat) : Option Nat :=
  let l := loc * 4 % W
  if l < usizeSub g.inner.length 3 then
    if l + 3 < g.inner.length then
      some ((((0 ||| (g.inner.getD l 0 <<< 24)) ||| (g.inner.getD (l + 1) 0 <<< 16))
        ||| (g.inner.getD (l + 2) 0 <<< 8)) ||| g.inner.getD (l + 3) 0)
    else none
  else some 0

/-- `Genes::g64(loc)`: guard `loc * 8 < inner.len() - 7`, eight-byte
big-endian read. -/
def g64 (g : Genes) (loc : Nat) : Option Nat :=
  let l := loc * 8 % W
  if l < usizeSub g.inner.length 7 then
    if l + 7 < g.inner.length then
      some ((((((((0 ||| (g.inner.getD l 0 <<< 56)) ||| (g.inner.getD (l + 1) 0 <<< 48))
        ||| (g.inner.getD (l + 2) 0 <<< 40)) ||| (g.inner.getD (l + 3) 0 <<< 32))
        ||| (g.inner.getD (l + 4) 0 <<< 24)) ||| (g.inner.getD (l + 5) 0 <<< 16))
        ||| (g.inner.getD (l + 6) 0 <<< 8)) ||| g.inner.getD (l + 7) 0)
    else none
  else some 0

/-- `Genes::g128(loc)`: guard `loc * 16 < inner.len() - 15`, sixteen-byte
big-endian read. -/
def g128 (g : Genes) (loc : Nat) : Option Nat :=
  let l := loc * 16 % W
  if l < usizeSub g.inner.length 15 then
    if l + 15 < g.inner.length then
      some ((((((((((((((((0
        ||| (g.inner.getD l 0 <<< 120)) ||| (g.inner.getD (l + 1) 0 <<< 112))
        ||| (g.inner.getD (l + 2) 0 <<< 104)) ||| (g.inner.getD (l + 3) 0 <<< 96))
        ||| (g.inner.getD (l + 4) 0 <<< 88)) ||| (g.inner.getD (l + 5) 0 <<< 80))
        ||| (g.inner.getD (l + 6) 0 <<< 72)) ||| (g.inner.getD (l + 7) 0 <<< 64))
        ||| (g.inner.getD (l + 8) 0 <<< 56)) ||| (g.inner.getD (l + 9) 0 <<< 48))
        ||| (g.inner.getD (l + 10) 0 <<< 40)) ||| (g.inner.getD (l + 11) 0 <<< 32))
        ||| (g.inner.getD (l + 12) 0 <<< 24)) ||| (g.inner.getD (l + 13) 0 <<< 16))
        ||| (g.inner.getD (l + 14) 0 <<< 8)) ||| g.inner.getD (l + 15) 0)
    else none
  else some 0

end Genes

/-- `struct Individual { score: f64, genes: Genes }`; both constructors set
the score to `0.0`. -/
structure Individual where
  score : Int
  genes : Genes
deriving DecidableEq

/-- `GeneticOptimizer { population, n, mutation_rate, .. }`.  The `target`
(scoring function) and `rng` are passed to the operations explicitly: the
scorer as a pure function `Genes → Int`, the RNG as the oracle streams. -/
structure GeneticOptimizer where
  population : List Individual
  n : Nat
  mutationRate : ℚ
deriving DecidableEq

/-- The comparison `a.score.partial_cmp(&b.score)` used by `step`'s
ascending sort. -/
def scoreLE (a b : Individual) : Prop := a.score ≤ b.score

instance : DecidableRel scoreLE := fun a b => inferInstanceAs (Decidable (a.score ≤ b.score))

instance : IsTotal Individual scoreLE := ⟨fun a b => Int.le_total a.score b.score⟩

instance : IsTrans Individual scoreLE := ⟨fun _ _ _ hab hbc => le_trans hab hbc⟩

/-- The evaluation phase of `step`: store `target.score(genes)` into every
individual. -/
def scorePop (f : Genes → Int) (pop : List Individual) : List Individual :=
  pop.map fun ind => { ind with score := f ind.genes }

/-- `self.population.sort_by(|a, b| a.score.partial_cmp(&b.score).unwrap())`:
Rust's `sort_by` is a stable ascending sort; for a total order on the keys
the stable sorted permutation is unique, so the (stable) insertion sort is
extensionally the same function. -/
def sortPop (pop : List Individual) : List Individual := pop.insertionSort scoreLE

/-- One discarded individual after the wipe loop: `individual.genes.wipe()`. -/
def wipeInd (ind : Individual) : Individual := { ind with genes := ind.genes.wipe }

/-- `GeneticOptimizer::crossover(p1, p2)`: clone `p1`, then for each gene
position take the bit from `p1` or `p2` by a coin flip (`gen_bool(0.5)`),
then flip each bit whose `gen_bool(mutation_rate)` draw came up true.
`ci` is the index of the next unconsumed coin; the call consumes `2 * n`. -/
def crossover (n : Nat) (p1 p2 : Genes) (coins : Nat → Bool) (ci : Nat) : Genes :=
  let c := (List.range n).foldl
    (fun c idx =>
      if coins (ci + idx) then
        (if p1.get idx = 1 then c.set idx else c.clear idx)
      else
        (if p2.get idx = 1 then c.set idx else c.clear idx))
    p1
  (List.range n).foldl
    (fun c idx => if coins (ci + n + idx) then c.flip idx else c) c

/-- `while parent1_idx == parent2_idx { parent2_idx = rng.gen_range(0..keep) }`:
redraw (consuming one `nats` entry per iteration) until the draw differs
from `p1`; returns the draw and the next stream index, `none` when the fuel
runs out (the loop diverges iff this is `none` for every fuel). -/
def resampleLoop (keep p1 : Nat) (nats : Nat → Nat) (ni : Nat) : Nat → Option (Nat × Nat)
  | 0 => none
  | fuel + 1 =>
    let d := nats ni % keep
    if d = p1 then resampleLoop keep p1 nats (ni + 1) fuel else some (d, ni + 1)

/-- The replenish loop of `step`: for each discarded slot `idx`, draw
`parent1_idx`, redraw `parent2_idx` until distinct, and overwrite the
slot's genes with a crossover child.  `gen_range(0..0)` (possible only when
`keep = 0`, i.e. a population of size 1) panics, modelled by `none`. -/
def replenishLoop (nbits keep : Nat) (nats : Nat → Nat) (coins : Nat → Bool) (fuel : Nat) :
    List Nat → List Individual → Nat → Nat → Option (List Individual × Nat × Nat)
  | [], pop, ni, ci => some (pop, ni, ci)
  | idx :: rest, pop, ni, ci =>
    if keep = 0 then none
    else
      let p1 := nats ni % keep
      match resampleLoop keep p1 nats (ni + 1) fuel with
      | none => none
      | some (p2, ni2) =>
        match pop[p1]?, pop[p2]?, pop[idx]? with
        | some par1, some par2, some cur =>
          replenishLoop nbits keep nats coins fuel rest
            (pop.set idx { cur with genes := crossover nbits par1.genes par2.genes coins ci })
            ni2 (ci + 2 * nbits)
        | _, _, _ => none

/-- `GeneticOptimizer::step()` on a bare population: evaluate, sort
ascending, keep the best `floor(len * 0.5)` (`(len as f64 * 0.5) as usize`
is exactly `len / 2` for any realizable length), wipe the discarded tail,
then replenish slots `keep .. len`.  Returns the new population and the
next unconsumed `nats`/`coins` indices. -/
def stepPop (f : Genes → Int) (nbits : Nat) (pop : List Individual)
    (nats : Nat → Nat) (coins : Nat → Bool) (ni ci fuel : Nat) :
    Option (List Individual × Nat × Nat) :=
  replenishLoop nbits (pop.length / 2) nats coins fuel
    (List.range' (pop.length / 2) (pop.length - pop.length / 2))
    ((sortPop (scorePop f pop)).take (pop.length / 2)
      ++ ((sortPop (scorePop f pop)).drop (pop.length / 2)).map wipeInd)
    ni ci

/-- `GeneticOptimizer::evolve(epochs)` on a bare population: `step` that
many times. -/
def evolvePop (f : Genes → Int) (nbits : Nat) (nats : Nat → Nat) (coins : Nat → Bool)
    (fuel : Nat) : Nat → List Individual → Nat → Nat → Option (List Individual × Nat × Nat)
  | 0, pop, ni, ci => some (pop, ni, ci)
  | epochs + 1, pop, ni, ci =>
    match stepPop f nbits pop nats coins ni ci fuel with
    | some (pop2, ni2, ci2) => evolvePop f nbits nats coins fuel epochs pop2 ni2 ci2
    | none => none

namespace GeneticOptimizer

/-- `GeneticOptimizer::new(size, n, mutation_rate, target)`: build `size`
individuals, each with `n / 8` bytes drawn from the RNG (`rng.gen::<u8>()`
— the `bytes` stream reduced mod 256), score `0.0`.  There is no
validation of any argument and no error path: the function always returns
an optimizer. -/
def new (size n : Nat) (mutationRate : ℚ) (bytes : Nat → Nat) : GeneticOptimizer :=
  { population := (List.range size).map fun i =>
      { score := 0,
        genes := Genes.newWithGenes
          ((List.range (n / 8)).map fun j => bytes (i * (n / 8) + j) % 256) }
    n := n
    mutationRate := mutationRate }

/-- `GeneticOptimizer::step()`. -/
def step (f : Genes → Int) (opt : GeneticOptimizer) (nats : Nat → Nat)
    (coins : Nat → Bool) (ni ci fuel : Nat) : Option (GeneticOptimizer × Nat × Nat) :=
  match stepPop f opt.n opt.population nats coins ni ci fuel with
  | some (pop2, ni2, ci2) => some ({ opt with population := pop2 }, ni2, ci2)
  | none => none

/-- `GeneticOptimizer::evolve(epochs)`. -/
def evolve (f : Genes → Int) (opt : GeneticOptimizer) (epochs : Nat) (nats : Nat → Nat)
    (coins : Nat → Bool) (ni ci fuel : Nat) : Option (GeneticOptimizer × Nat × Nat) :=
  match evolvePop f opt.n nats coins fuel epochs opt.population ni ci with
  | some (pop2, ni2, ci2) => some ({ opt with population := pop2 }, ni2, ci2)
  | none => none

end GeneticOptimizer

/-- `GeneticOptimizer::best()`: `best_score` starts at `-1.0`, `best` at
`&population[0]` (a panic — `none` — on an empty population); every
individual is re-scored in order and `best` is replaced only when the fresh
score is strictly below the running `best_score`. -/
def bestGenes (f : Genes → Int) (pop : List Individual) : Option Genes :=
  match pop with
  | [] => none
  | first :: _ =>
    some ((pop.foldl
      (fun (acc : Int × Individual) ind =>
        let s := f ind.genes
        if s < acc.1 then (s, ind) else acc)
      ((-1 : Int), first)).2.genes)

/-- `GeneticOptimizer::best()`. -/
def GeneticOptimizer.best (f : Genes → Int) (opt : GeneticOptimizer) : Option Genes :=
  bestGenes f opt.population

end GenesLib

namespace GenesLib

/-! ### Concrete fixtures used by witnesses and counterexamples -/

/-- A deterministic scoring function: `5` for the genome `[1]`, `3`
otherwise. -/
def exScore : Genes → Int := fun g => if g.inner = [1] then 5 else 3

/-- A two-individual population with genomes `[1]` and `[2]`. -/
def exPop : List Individual := [⟨0, ⟨[1]⟩⟩, ⟨0, ⟨[2]⟩⟩]

/-- A four-individual population with one-byte genomes `[3]`, `[1]`,
`[4]`, `[2]`. -/
def pop4c : List Individual := [⟨0, ⟨[3]⟩⟩, ⟨0, ⟨[1]⟩⟩, ⟨0, ⟨[4]⟩⟩, ⟨0, ⟨[2]⟩⟩]

/-- Scoring by the first genome byte. -/
def fhead : Genes → Int := fun g => (g.inner.headD 0 : Int)

/-- The population `stepPop` produces from `pop4c` with consecutive
`gen_range` draws and all-false coins. -/
def pop4cAfter : List Individual := [⟨1, ⟨[1]⟩⟩, ⟨2, ⟨[2]⟩⟩, ⟨3, ⟨[2]⟩⟩, ⟨4, ⟨[2]⟩⟩]

/-- An optimizer over `pop4c` with 8-bit genomes. -/
def opt4c : GeneticOptimizer := { population := pop4c, n := 8, mutationRate := 0 }

/-- `opt4c` after the step computed in `pop4cAfter`. -/
def opt4cAfter : GeneticOptimizer := { population := pop4cAfter, n := 8, mutationRate := 0 }

/-- The worked four-byte buffer from the specification. -/
def exBuf : Genes := ⟨[0xDE, 0xAD, 0xBE, 0xEF]⟩

/-! ### Bit-level helper lemmas -/

theorem and_seven_eq_mod (x : Nat) : x &&& 7 = x % 8 := by
  have h := Nat.and_pow_two_sub_one_eq_mod x 3
  norm_num at h
  omega

theorem shiftRight_and_one_congr (x y l : Nat) (h : Nat.testBit x l = Nat.testBit y l) :
    (x >>> l) &&& 1 = (y >>> l) &&& 1 := by
  have h2 : Nat.testBit (x >>> l) 0 = Nat.testBit (y >>> l) 0 := by
    simpa [Nat.testBit_shiftRight] using h
  rw [Nat.testBit_zero, Nat.testBit_zero] at h2
  simp only [Nat.and_one_is_mod]
  have hx : (x >>> l) % 2 < 2 := Nat.mod_lt _ (by norm_num)
  have hy : (y >>> l) % 2 < 2 := Nat.mod_lt _ (by norm_num)
  have := decide_eq_decide.mp h2
  omega

/-- `Genes.get` through `getD`, with the mask rewritten as `% 8`. -/
theorem get_eq_getD (g : Genes) (j : Nat) :
    g.get j = if j / 8 < g.inner.length then (g.inner.getD (j / 8) 0 >>> (j % 8)) &&& 1
      else 0 := by
  unfold Genes.get
  split
  · next h =>
    simp [and_seven_eq_mod, List.getD_eq_getElem?_getD, List.getElem?_eq_getElem h]
  · next h => rfl

/-- Updating byte `bi` leaves `get j` unchanged provided either the byte is
another one or the new byte agrees with the old one on bit `j % 8`. -/
theorem get_set_byte (g : Genes) (bi x j : Nat) (hbi : bi < g.inner.length)
    (hx : Nat.testBit x (j % 8) = Nat.testBit (g.inner.getD (j / 8) 0) (j % 8) ∨ bi ≠ j / 8) :
    Genes.get ⟨g.inner.set bi x⟩ j = Genes.get g j := by
  rw [get_eq_getD, get_eq_getD]
  simp only [List.length_set]
  split
  · next h =>
    by_cases hbj : bi = j / 8
    · subst hbj
      rcases hx with heq | hne
      · refine shiftRight_and_one_congr _ _ _ ?_
        rw [List.getD_eq_getElem?_getD, List.getElem?_set_self (by simpa using hbi)]
        simpa using heq
      · exact absurd rfl hne
    · congr 2
      rw [List.getD_eq_getElem?_getD, List.getD_eq_getElem?_getD,
        List.getElem?_set_ne hbj]
  · rfl

theorem testBit_or_one_shift (li lj b : Nat) (h : li ≠ lj) :
    Nat.testBit (b ||| (1 <<< li)) lj = Nat.testBit b lj := by
  rw [Nat.one_shiftLeft, Nat.testBit_lor, Nat.testBit_two_pow_of_ne h]
  simp

theorem testBit_and_mask_shift (li lj b : Nat) (h : li ≠ lj) (hj : lj < 8) :
    Nat.testBit (b &&& (255 ^^^ (1 <<< li))) lj = Nat.testBit b lj := by
  rw [Nat.one_shiftLeft, Nat.testBit_land, Nat.testBit_xor,
    Nat.testBit_two_pow_of_ne h]
  have h255 : (255 : Nat) = 2 ^ 8 - 1 := by norm_num
  rw [h255, Nat.testBit_two_pow_sub_one]
  simp [hj]

theorem testBit_xor_one_shift (li lj b : Nat) (h : li ≠ lj) :
    Nat.testBit (b ^^^ (1 <<< li)) lj = Nat.testBit b lj := by
  rw [Nat.one_shiftLeft, Nat.testBit_xor, Nat.testBit_two_pow_of_ne h]
  simp

end GenesLib

namespace GenesLib

theorem getD_eq_elem (l : List Nat) (n : Nat) (h : n < l.length) : l.getD n 0 = l[n] := by
  rw [List.getD_eq_getElem?_getD, List.getElem?_eq_getElem h]
  rfl

/-- C10: single-bit writes are local — `set`, `clear` and `flip` at `i`
leave `get j` unchanged for every `j ≠ i`; only byte `i / 8`, bit `i % 8`
can differ. -/
theorem bit_write_frame (g : Genes) (i j : Nat) (hij : i ≠ j) :
    (g.set i).get j = g.get j ∧ (g.clear i).get j = g.get j ∧
    (g.flip i).get j = g.get j := by
  have hloc : i / 8 = j / 8 → i % 8 ≠ j % 8 := by omega
  refine ⟨?_, ?_, ?_⟩
  · unfold Genes.set
    split
    · next h =>
      refine get_set_byte _ _ _ _ h ?_
      by_cases hbj : i / 8 = j / 8
      · left
        rw [← hbj, getD_eq_elem _ _ h, and_seven_eq_mod]
        exact testBit_or_one_shift _ _ _ (hloc hbj)
      · right; exact hbj
    · rfl
  · unfold Genes.clear
    split
    · next h =>
      refine get_set_byte _ _ _ _ h ?_
      by_cases hbj : i / 8 = j / 8
      · left
        rw [← hbj, getD_eq_elem _ _ h, and_seven_eq_mod]
        exact testBit_and_mask_shift _ _ _ (hloc hbj) (by omega)
      · right; exact hbj
    · rfl
  · unfold Genes.flip
    split
    · next h =>
      refine get_set_byte _ _ _ _ h ?_
      by_cases hbj : i / 8 = j / 8
      · left
        rw [← hbj, getD_eq_elem _ _ h, and_seven_eq_mod]
        exact testBit_xor_one_shift _ _ _ (hloc hbj)
      · right; exact hbj
    · rfl

/-- Witness for C10 at `i = 3`, `j = 5` on a 16-bit zero buffer. -/
theorem bit_write_frame_concrete :
    ((Genes.new 16).set 3).get 5 = (Genes.new 16).get 5 ∧
    ((Genes.new 16).clear 3).get 5 = (Genes.new 16).get 5 ∧
    ((Genes.new 16).flip 3).get 5 = (Genes.new 16).get 5 :=
  bit_write_frame (Genes.new 16) 3 5 (by decide)

/-- C4 (code bug): `Genes::new(9)` allocates `9 / 8 = 1` byte, not
`ceil(9/8) = 2`, so bit 8 of a nine-bit genome has no backing storage. -/
theorem genes_new_allocates_floor_bytes :
    (Genes.new 9).inner.length = 1 ∧ (Genes.new 9).inner.length ≠ (9 + 7) / 8 := by
  decide

/-- C5 (code bug): on the buffer built for 9 bits, `set 8` is a silent
no-op and `get 8` stays `0`; on a 16-bit buffer the round-trip works. -/
theorem set_then_get_fails_on_unbacked_bit :
    ((Genes.new 9).set 8).get 8 = 0 ∧ ((Genes.new 16).set 8).get 8 = 1 := by
  decide

/-- C6 (code bug): the multi-byte readers panic (`none`) on buffers
shorter than `width/8 - 1` bytes — the `len - (adj_factor - 1)` guard
underflows — while `g8`, whose guard has no subtraction, is total. -/
theorem multibyte_read_short_buffer_panics :
    Genes.g16 ⟨[]⟩ 0 = none ∧ Genes.g32 ⟨[0xAB]⟩ 0 = none ∧
    Genes.g64 ⟨[0, 0, 0]⟩ 0 = none ∧ Genes.g128 ⟨List.replicate 10 0⟩ 0 = none ∧
    ∀ (g : Genes) (loc : Nat), (Genes.g8 g loc).isSome := by
  refine ⟨by decide, by decide, by decide, by decide, fun g loc => ?_⟩
  unfold Genes.g8
  split <;> rfl

/-- C1 (code bug): `best()` re-scores the population but compares against
a running best initialised to `-1.0`; with fresh scores `5` and `3` (both
above the sentinel) it returns the first genome, not the minimal-score
one. -/
theorem best_ignores_fresh_minimum :
    bestGenes exScore exPop = some ⟨[1]⟩ ∧ exScore ⟨[1]⟩ = 5 ∧ exScore ⟨[2]⟩ = 3 ∧
    (Genes.mk [2]) ∈ exPop.map Individual.genes ∧ (Genes.mk [1]) ≠ Genes.mk [2] := by
  decide

end GenesLib

namespace GenesLib

/-! ### Big-endian decoding (C9) -/

theorem getD_lt_256 (l : List Nat) (hb : ∀ b ∈ l, b < 256) (n : Nat) (h : n < l.length) :
    l.getD n 0 < 256 := by
  rw [getD_eq_elem _ _ h]
  exact hb _ (List.getElem_mem h)

theorem lor_byte_mul (a b s : Nat) (ha : 2 ^ (s + 8) ∣ a) (hb : b < 256) :
    a ||| (b * 2 ^ s) = a + b * 2 ^ s := by
  obtain ⟨c, rfl⟩ := ha
  have hb2 : b * 2 ^ s < 2 ^ (s + 8) := by
    have h : (2 : Nat) ^ (s + 8) = 256 * 2 ^ s := by
      rw [pow_add]
      ring
    rw [h]
    exact (Nat.mul_lt_mul_right (Nat.two_pow_pos s)).mpr hb
  exact (Nat.mul_add_lt_is_or hb2 c).symm

theorem lor_byte_last (a b : Nat) (ha : 2 ^ 8 ∣ a) (hb : b < 256) :
    a ||| b = a + b := by
  obtain ⟨c, rfl⟩ := ha
  exact (Nat.mul_add_lt_is_or (by omega) c).symm

theorem g8_decode (g : Genes) (loc : Nat) (hr : loc < g.inner.length) :
    Genes.g8 g loc = some (g.inner.getD loc 0) := by
  unfold Genes.g8
  rw [dif_pos hr, getD_eq_elem _ _ hr]

theorem g16_decode (g : Genes) (loc : Nat) (hb : ∀ b ∈ g.inner, b < 256)
    (hr : loc * 2 + 2 ≤ g.inner.length) (hw : g.inner.length ≤ W) :
    Genes.g16 g loc = some (g.inner.getD (loc * 2) 0 * 2 ^ 8
      + g.inner.getD (loc * 2 + 1) 0) := by
  have hmod : loc * 2 % W = loc * 2 := Nat.mod_eq_of_lt (by omega)
  have hsub : usizeSub g.inner.length 1 = g.inner.length - 1 := by
    unfold usizeSub
    rw [if_pos (by omega)]
  simp only [Genes.g16, hmod, hsub]
  rw [if_pos (by omega), if_pos (by omega)]
  have h1 : g.inner.getD (loc * 2 + 1) 0 < 256 := getD_lt_256 _ hb _ (by omega)
  rw [Nat.zero_or]
  simp only [Nat.shiftLeft_eq]
  rw [lor_byte_last (g.inner.getD (loc * 2) 0 * 2 ^ 8) (g.inner.getD (loc * 2 + 1) 0) (by omega) h1]

theorem g32_decode (g : Genes) (loc : Nat) (hb : ∀ b ∈ g.inner, b < 256)
    (hr : loc * 4 + 4 ≤ g.inner.length) (hw : g.inner.length ≤ W) :
    Genes.g32 g loc = some (g.inner.getD (loc * 4) 0 * 2 ^ 24
      + g.inner.getD (loc * 4 + 1) 0 * 2 ^ 16
      + g.inner.getD (loc * 4 + 2) 0 * 2 ^ 8
      + g.inner.getD (loc * 4 + 3) 0) := by
  have hmod : loc * 4 % W = loc * 4 := Nat.mod_eq_of_lt (by omega)
  have hsub : usizeSub g.inner.length 3 = g.inner.length - 3 := by
    unfold usizeSub
    rw [if_pos (by omega)]
  simp only [Genes.g32, hmod, hsub]
  rw [if_pos (by omega), if_pos (by omega)]
  have h1 : g.inner.getD (loc * 4 + 1) 0 < 256 := getD_lt_256 _ hb _ (by omega)
  have h2 : g.inner.getD (loc * 4 + 2) 0 < 256 := getD_lt_256 _ hb _ (by omega)
  have h3 : g.inner.getD (loc * 4 + 3) 0 < 256 := getD_lt_256 _ hb _ (by omega)
  rw [Nat.zero_or]
  simp only [Nat.shiftLeft_eq]
  rw [lor_byte_mul (g.inner.getD (loc * 4) 0 * 2 ^ 24) (g.inner.getD (loc * 4 + 1) 0) 16 (by omega) h1]
  rw [lor_byte_mul (g.inner.getD (loc * 4) 0 * 2 ^ 24 + g.inner.getD (loc * 4 + 1) 0 * 2 ^ 16) (g.inner.getD (loc * 4 + 2) 0) 8 (by omega) h2]
  rw [lor_byte_last (g.inner.getD (loc * 4) 0 * 2 ^ 24 + g.inner.getD (loc * 4 + 1) 0 * 2 ^ 16 + g.inner.getD (loc * 4 + 2) 0 * 2 ^ 8) (g.inner.getD (loc * 4 + 3) 0) (by omega) h3]

theorem g64_decode (g : Genes) (loc : Nat) (hb : ∀ b ∈ g.inner, b < 256)
    (hr : loc * 8 + 8 ≤ g.inner.length) (hw : g.inner.length ≤ W) :
    Genes.g64 g loc = some (g.inner.getD (loc * 8) 0 * 2 ^ 56
      + g.inner.getD (loc * 8 + 1) 0 * 2 ^ 48
      + g.inner.getD (loc * 8 + 2) 0 * 2 ^ 40
      + g.inner.getD (loc * 8 + 3) 0 * 2 ^ 32
      + g.inner.getD (loc * 8 + 4) 0 * 2 ^ 24
      + g.inner.getD (loc * 8 + 5) 0 * 2 ^ 16
      + g.inner.getD (loc * 8 + 6) 0 * 2 ^ 8
      + g.inner.getD (loc * 8 + 7) 0) := by
  have hmod : loc * 8 % W = loc * 8 := Nat.mod_eq_of_lt (by omega)
  have hsub : usizeSub g.inner.length 7 = g.inner.length - 7 := by
    unfold usizeSub
    rw [if_pos (by omega)]
  simp only [Genes.g64, hmod, hsub]
  rw [if_pos (by omega), if_pos (by omega)]
  have h1 : g.inner.getD (loc * 8 + 1) 0 < 256 := getD_lt_256 _ hb _ (by omega)
  have h2 : g.inner.getD (loc * 8 + 2) 0 < 256 := getD_lt_256 _ hb _ (by omega)
  have h3 : g.inner.getD (loc * 8 + 3) 0 < 256 := getD_lt_256 _ hb _ (by omega)
  have h4 : g.inner.getD (loc * 8 + 4) 0 < 256 := getD_lt_256 _ hb _ (by omega)
  have h5 : g.inner.getD (loc * 8 + 5) 0 < 256 := getD_lt_256 _ hb _ (by omega)
  have h6 : g.inner.getD (loc * 8 + 6) 0 < 256 := getD_lt_256 _ hb _ (by omega)
  have h7 : g.inner.getD (loc * 8 + 7) 0 < 256 := getD_lt_256 _ hb _ (by omega)
  rw [Nat.zero_or]
  simp only [Nat.shiftLeft_eq]
  rw [lor_byte_mul (g.inner.getD (loc * 8) 0 * 2 ^ 56) (g.inner.getD (loc * 8 + 1) 0) 48 (by omega) h1]
  rw [lor_byte_mul (g.inner.getD (loc * 8) 0 * 2 ^ 56 + g.inner.getD (loc * 8 + 1) 0 * 2 ^ 48) (g.inner.getD (loc * 8 + 2) 0) 40 (by omega) h2]
  rw [lor_byte_mul (g.inner.getD (loc * 8) 0 * 2 ^ 56 + g.inner.getD (loc * 8 + 1) 0 * 2 ^ 48 + g.inner.getD (loc * 8 + 2) 0 * 2 ^ 40) (g.inner.getD (loc * 8 + 3) 0) 32 (by omega) h3]
  rw [lor_byte_mul (g.inner.getD (loc * 8) 0 * 2 ^ 56 + g.inner.getD (loc * 8 + 1) 0 * 2 ^ 48 + g.inner.getD (loc * 8 + 2) 0 * 2 ^ 40 + g.inner.getD (loc * 8 + 3) 0 * 2 ^ 32) (g.inner.getD (loc * 8 + 4) 0) 24 (by omega) h4]
  rw [lor_byte_mul (g.inner.getD (loc * 8) 0 * 2 ^ 56 + g.inner.getD (loc * 8 + 1) 0 * 2 ^ 48 + g.inner.getD (loc * 8 + 2) 0 * 2 ^ 40 + g.inner.getD (loc * 8 + 3) 0 * 2 ^ 32 + g.inner.getD (loc * 8 + 4) 0 * 2 ^ 24) (g.inner.getD (loc * 8 + 5) 0) 16 (by omega) h5]
  rw [lor_byte_mul (g.inner.getD (loc * 8) 0 * 2 ^ 56 + g.inner.getD (loc * 8 + 1) 0 * 2 ^ 48 + g.inner.getD (loc * 8 + 2) 0 * 2 ^ 40 + g.inner.getD (loc * 8 + 3) 0 * 2 ^ 32 + g.inner.getD (loc * 8 + 4) 0 * 2 ^ 24 + g.inner.getD (loc * 8 + 5) 0 * 2 ^ 16) (g.inner.getD (loc * 8 + 6) 0) 8 (by omega) h6]
  rw [lor_byte_last (g.inner.getD (loc * 8) 0 * 2 ^ 56 + g.inner.getD (loc * 8 + 1) 0 * 2 ^ 48 + g.inner.getD (loc * 8 + 2) 0 * 2 ^ 40 + g.inner.getD (loc * 8 + 3) 0 * 2 ^ 32 + g.inner.getD (loc * 8 + 4) 0 * 2 ^ 24 + g.inner.getD (loc * 8 + 5) 0 * 2 ^ 16 + g.inner.getD (loc * 8 + 6) 0 * 2 ^ 8) (g.inner.getD (loc * 8 + 7) 0) (by omega) h7]

theorem g128_decode (g : Genes) (loc : Nat) (hb : ∀ b ∈ g.inner, b < 256)
    (hr : loc * 16 + 16 ≤ g.inner.length) (hw : g.inner.length ≤ W) :
    Genes.g128 g loc = some (g.inner.getD (loc * 16) 0 * 2 ^ 120
      + g.inner.getD (loc * 16 + 1) 0 * 2 ^ 112
      + g.inner.getD (loc * 16 + 2) 0 * 2 ^ 104
      + g.inner.getD (loc * 16 + 3) 0 * 2 ^ 96
      + g.inner.getD (loc * 16 + 4) 0 * 2 ^ 88
      + g.inner.getD (loc * 16 + 5) 0 * 2 ^ 80
      + g.inner.getD (loc * 16 + 6) 0 * 2 ^ 72
      + g.inner.getD (loc * 16 + 7) 0 * 2 ^ 64
      + g.inner.getD (loc * 16 + 8) 0 * 2 ^ 56
      + g.inner.getD (loc * 16 + 9) 0 * 2 ^ 48
      + g.inner.getD (loc * 16 + 10) 0 * 2 ^ 40
      + g.inner.getD (loc * 16 + 11) 0 * 2 ^ 32
      + g.inner.getD (loc * 16 + 12) 0 * 2 ^ 24
      + g.inner.getD (loc * 16 + 13) 0 * 2 ^ 16
      + g.inner.getD (loc * 16 + 14) 0 * 2 ^ 8
      + g.inner.getD (loc * 16 + 15) 0) := by
  have hmod : loc * 16 % W = loc * 16 := Nat.mod_eq_of_lt (by omega)
  have hsub : usizeSub g.inner.length 15 = g.inner.length - 15 := by
    unfold usizeSub
    rw [if_pos (by omega)]
  simp only [Genes.g128, hmod, hsub]
  rw [if_pos (by omega), if_pos (by omega)]
  have h1 : g.inner.getD (loc * 16 + 1) 0 < 256 := getD_lt_256 _ hb _ (by omega)
  have h2 : g.inner.getD (loc * 16 + 2) 0 < 256 := getD_lt_256 _ hb _ (by omega)
  have h3 : g.inner.getD (loc * 16 + 3) 0 < 256 := getD_lt_256 _ hb _ (by omega)
  have h4 : g.inner.getD (loc * 16 + 4) 0 < 256 := getD_lt_256 _ hb _ (by omega)
  have h5 : g.inner.getD (loc * 16 + 5) 0 < 256 := getD_lt_256 _ hb _ (by omega)
  have h6 : g.inner.getD (loc * 16 + 6) 0 < 256 := getD_lt_256 _ hb _ (by omega)
  have h7 : g.inner.getD (loc * 16 + 7) 0 < 256 := getD_lt_256 _ hb _ (by omega)
  have h8 : g.inner.getD (loc * 16 + 8) 0 < 256 := getD_lt_256 _ hb _ (by omega)
  have h9 : g.inner.getD (loc * 16 + 9) 0 < 256 := getD_lt_256 _ hb _ (by omega)
  have h10 : g.inner.getD (loc * 16 + 10) 0 < 256 := getD_lt_256 _ hb _ (by omega)
  have h11 : g.inner.getD (loc * 16 + 11) 0 < 256 := getD_lt_256 _ hb _ (by omega)
  have h12 : g.inner.getD (loc * 16 + 12) 0 < 256 := getD_lt_256 _ hb _ (by omega)
  have h13 : g.inner.getD (loc * 16 + 13) 0 < 256 := getD_lt_256 _ hb _ (by omega)
  have h14 : g.inner.getD (loc * 16 + 14) 0 < 256 := getD_lt_256 _ hb _ (by omega)
  have h15 : g.inner.getD (loc * 16 + 15) 0 < 256 := getD_lt_256 _ hb _ (by omega)
  rw [Nat.zero_or]
  simp only [Nat.shiftLeft_eq]
  rw [lor_byte_mul (g.inner.getD (loc * 16) 0 * 2 ^ 120) (g.inner.getD (loc * 16 + 1) 0) 112 (by omega) h1]
  rw [lor_byte_mul (g.inner.getD (loc * 16) 0 * 2 ^ 120 + g.inner.getD (loc * 16 + 1) 0 * 2 ^ 112) (g.inner.getD (loc * 16 + 2) 0) 104 (by omega) h2]
  rw [lor_byte_mul (g.inner.getD (loc * 16) 0 * 2 ^ 120 + g.inner.getD (loc * 16 + 1) 0 * 2 ^ 112 + g.inner.getD (loc * 16 + 2) 0 * 2 ^ 104) (g.inner.getD (loc * 16 + 3) 0) 96 (by omega) h3]
  rw [lor_byte_mul (g.inner.getD (loc * 16) 0 * 2 ^ 120 + g.inner.getD (loc * 16 + 1) 0 * 2 ^ 112 + g.inner.getD (loc * 16 + 2) 0 * 2 ^ 104 + g.inner.getD (loc * 16 + 3) 0 * 2 ^ 96) (g.inner.getD (loc * 16 + 4) 0) 88 (by omega) h4]
  rw [lor_byte_mul (g.inner.getD (loc * 16) 0 * 2 ^ 120 + g.inner.getD (loc * 16 + 1) 0 * 2 ^ 112 + g.inner.getD (loc * 16 + 2) 0 * 2 ^ 104 + g.inner.getD (loc * 16 + 3) 0 * 2 ^ 96 + g.inner.getD (loc * 16 + 4) 0 * 2 ^ 88) (g.inner.getD (loc * 16 + 5) 0) 80 (by omega) h5]
  rw [lor_byte_mul (g.inner.getD (loc * 16) 0 * 2 ^ 120 + g.inner.getD (loc * 16 + 1) 0 * 2 ^ 112 + g.inner.getD (loc * 16 + 2) 0 * 2 ^ 104 + g.inner.getD (loc * 16 + 3) 0 * 2 ^ 96 + g.inner.getD (loc * 16 + 4) 0 * 2 ^ 88 + g.inner.getD (loc * 16 + 5) 0 * 2 ^ 80) (g.inner.getD (loc * 16 + 6) 0) 72 (by omega) h6]
  rw [lor_byte_mul (g.inner.getD (loc * 16) 0 * 2 ^ 120 + g.inner.getD (loc * 16 + 1) 0 * 2 ^ 112 + g.inner.getD (loc * 16 + 2) 0 * 2 ^ 104 + g.inner.getD (loc * 16 + 3) 0 * 2 ^ 96 + g.inner.getD (loc * 16 + 4) 0 * 2 ^ 88 + g.inner.getD (loc * 16 + 5) 0 * 2 ^ 80 + g.inner.getD (loc * 16 + 6) 0 * 2 ^ 72) (g.inner.getD (loc * 16 + 7) 0) 64 (by omega) h7]
  rw [lor_byte_mul (g.inner.getD (loc * 16) 0 * 2 ^ 120 + g.inner.getD (loc * 16 + 1) 0 * 2 ^ 112 + g.inner.getD (loc * 16 + 2) 0 * 2 ^ 104 + g.inner.getD (loc * 16 + 3) 0 * 2 ^ 96 + g.inner.getD (loc * 16 + 4) 0 * 2 ^ 88 + g.inner.getD (loc * 16 + 5) 0 * 2 ^ 80 + g.inner.getD (loc * 16 + 6) 0 * 2 ^ 72 + g.inner.getD (loc * 16 + 7) 0 * 2 ^ 64) (g.inner.getD (loc * 16 + 8) 0) 56 (by omega) h8]
  rw [lor_byte_mul (g.inner.getD (loc * 16) 0 * 2 ^ 120 + g.inner.getD (loc * 16 + 1) 0 * 2 ^ 112 + g.inner.getD (loc * 16 + 2) 0 * 2 ^ 104 + g.inner.getD (loc * 16 + 3) 0 * 2 ^ 96 + g.inner.getD (loc * 16 + 4) 0 * 2 ^ 88 + g.inner.getD (loc * 16 + 5) 0 * 2 ^ 80 + g.inner.getD (loc * 16 + 6) 0 * 2 ^ 72 + g.inner.getD (loc * 16 + 7) 0 * 2 ^ 64 + g.inner.getD (loc * 16 + 8) 0 * 2 ^ 56) (g.inner.getD (loc * 16 + 9) 0) 48 (by omega) h9]
  rw [lor_byte_mul (g.inner.getD (loc * 16) 0 * 2 ^ 120 + g.inner.getD (loc * 16 + 1) 0 * 2 ^ 112 + g.inner.getD (loc * 16 + 2) 0 * 2 ^ 104 + g.inner.getD (loc * 16 + 3) 0 * 2 ^ 96 + g.inner.getD (loc * 16 + 4) 0 * 2 ^ 88 + g.inner.getD (loc * 16 + 5) 0 * 2 ^ 80 + g.inner.getD (loc * 16 + 6) 0 * 2 ^ 72 + g.inner.getD (loc * 16 + 7) 0 * 2 ^ 64 + g.inner.getD (loc * 16 + 8) 0 * 2 ^ 56 + g.inner.getD (loc * 16 + 9) 0 * 2 ^ 48) (g.inner.getD (loc * 16 + 10) 0) 40 (by omega) h10]
  rw [lor_byte_mul (g.inner.getD (loc * 16) 0 * 2 ^ 120 + g.inner.getD (loc * 16 + 1) 0 * 2 ^ 112 + g.inner.getD (loc * 16 + 2) 0 * 2 ^ 104 + g.inner.getD (loc * 16 + 3) 0 * 2 ^ 96 + g.inner.getD (loc * 16 + 4) 0 * 2 ^ 88 + g.inner.getD (loc * 16 + 5) 0 * 2 ^ 80 + g.inner.getD (loc * 16 + 6) 0 * 2 ^ 72 + g.inner.getD (loc * 16 + 7) 0 * 2 ^ 64 + g.inner.getD (loc * 16 + 8) 0 * 2 ^ 56 + g.inner.getD (loc * 16 + 9) 0 * 2 ^ 48 + g.inner.getD (loc * 16 + 10) 0 * 2 ^ 40) (g.inner.getD (loc * 16 + 11) 0) 32 (by omega) h11]
  rw [lor_byte_mul (g.inner.getD (loc * 16) 0 * 2 ^ 120 + g.inner.getD (loc * 16 + 1) 0 * 2 ^ 112 + g.inner.getD (loc * 16 + 2) 0 * 2 ^ 104 + g.inner.getD (loc * 16 + 3) 0 * 2 ^ 96 + g.inner.getD (loc * 16 + 4) 0 * 2 ^ 88 + g.inner.getD (loc * 16 + 5) 0 * 2 ^ 80 + g.inner.getD (loc * 16 + 6) 0 * 2 ^ 72 + g.inner.getD (loc * 16 + 7) 0 * 2 ^ 64 + g.inner.getD (loc * 16 + 8) 0 * 2 ^ 56 + g.inner.getD (loc * 16 + 9) 0 * 2 ^ 48 + g.inner.getD (loc * 16 + 10) 0 * 2 ^ 40 + g.inner.getD (loc * 16 + 11) 0 * 2 ^ 32) (g.inner.getD (loc * 16 + 12) 0) 24 (by omega) h12]
  rw [lor_byte_mul (g.inner.getD (loc * 16) 0 * 2 ^ 120 + g.inner.getD (loc * 16 + 1) 0 * 2 ^ 112 + g.inner.getD (loc * 16 + 2) 0 * 2 ^ 104 + g.inner.getD (loc * 16 + 3) 0 * 2 ^ 96 + g.inner.getD (loc * 16 + 4) 0 * 2 ^ 88 + g.inner.getD (loc * 16 + 5) 0 * 2 ^ 80 + g.inner.getD (loc * 16 + 6) 0 * 2 ^ 72 + g.inner.getD (loc * 16 + 7) 0 * 2 ^ 64 + g.inner.getD (loc * 16 + 8) 0 * 2 ^ 56 + g.inner.getD (loc * 16 + 9) 0 * 2 ^ 48 + g.inner.getD (loc * 16 + 10) 0 * 2 ^ 40 + g.inner.getD (loc * 16 + 11) 0 * 2 ^ 32 + g.inner.getD (loc * 16 + 12) 0 * 2 ^ 24) (g.inner.getD (loc * 16 + 13) 0) 16 (by omega) h13]
  rw [lor_byte_mul (g.inner.getD (loc * 16) 0 * 2 ^ 120 + g.inner.getD (loc * 16 + 1) 0 * 2 ^ 112 + g.inner.getD (loc * 16 + 2) 0 * 2 ^ 104 + g.inner.getD (loc * 16 + 3) 0 * 2 ^ 96 + g.inner.getD (loc * 16 + 4) 0 * 2 ^ 88 + g.inner.getD (loc * 16 + 5) 0 * 2 ^ 80 + g.inner.getD (loc * 16 + 6) 0 * 2 ^ 72 + g.inner.getD (loc * 16 + 7) 0 * 2 ^ 64 + g.inner.getD (loc * 16 + 8) 0 * 2 ^ 56 + g.inner.getD (loc * 16 + 9) 0 * 2 ^ 48 + g.inner.getD (loc * 16 + 10) 0 * 2 ^ 40 + g.inner.getD (loc * 16 + 11) 0 * 2 ^ 32 + g.inner.getD (loc * 16 + 12) 0 * 2 ^ 24 + g.inner.getD (loc * 16 + 13) 0 * 2 ^ 16) (g.inner.getD (loc * 16 + 14) 0) 8 (by omega) h14]
  rw [lor_byte_last (g.inner.getD (loc * 16) 0 * 2 ^ 120 + g.inner.getD (loc * 16 + 1) 0 * 2 ^ 112 + g.inner.getD (loc * 16 + 2) 0 * 2 ^ 104 + g.inner.getD (loc * 16 + 3) 0 * 2 ^ 96 + g.inner.getD (loc * 16 + 4) 0 * 2 ^ 88 + g.inner.getD (loc * 16 + 5) 0 * 2 ^ 80 + g.inner.getD (loc * 16 + 6) 0 * 2 ^ 72 + g.inner.getD (loc * 16 + 7) 0 * 2 ^ 64 + g.inner.getD (loc * 16 + 8) 0 * 2 ^ 56 + g.inner.getD (loc * 16 + 9) 0 * 2 ^ 48 + g.inner.getD (loc * 16 + 10) 0 * 2 ^ 40 + g.inner.getD (loc * 16 + 11) 0 * 2 ^ 32 + g.inner.getD (loc * 16 + 12) 0 * 2 ^ 24 + g.inner.getD (loc * 16 + 13) 0 * 2 ^ 16 + g.inner.getD (loc * 16 + 14) 0 * 2 ^ 8) (g.inner.getD (loc * 16 + 15) 0) (by omega) h15]

/-- C9: multi-bit reads decode big-endian — the spec's worked example on
`[0xDE, 0xAD, 0xBE, 0xEF]`, and in general every in-range k-bit slot
(k ∈ {8, 16, 32, 64, 128}) decodes its byte range with the first byte most
significant (byte values `< 256`, buffer length within `usize`). -/
theorem read_big_endian_decode :
    (Genes.g8 exBuf 0 = some 0xDE ∧ Genes.g16 exBuf 0 = some 0xDEAD ∧
      Genes.g32 exBuf 0 = some 0xDEADBEEF) ∧
    (∀ (g : Genes) (loc : Nat), loc < g.inner.length →
      Genes.g8 g loc = some (g.inner.getD loc 0)) ∧
    (∀ (g : Genes) (loc : Nat), (∀ b ∈ g.inner, b < 256) →
      loc * 2 + 2 ≤ g.inner.length → g.inner.length ≤ W →
      Genes.g16 g loc = some (g.inner.getD (loc * 2) 0 * 2 ^ 8
        + g.inner.getD (loc * 2 + 1) 0)) ∧
    (∀ (g : Genes) (loc : Nat), (∀ b ∈ g.inner, b < 256) →
      loc * 4 + 4 ≤ g.inner.length → g.inner.length ≤ W →
      Genes.g32 g loc = some (g.inner.getD (loc * 4) 0 * 2 ^ 24
        + g.inner.getD (loc * 4 + 1) 0 * 2 ^ 16
        + g.inner.getD (loc * 4 + 2) 0 * 2 ^ 8
        + g.inner.getD (loc * 4 + 3) 0)) ∧
    (∀ (g : Genes) (loc : Nat), (∀ b ∈ g.inner, b < 256) →
      loc * 8 + 8 ≤ g.inner.length → g.inner.length ≤ W →
      Genes.g64 g loc = some (g.inner.getD (loc * 8) 0 * 2 ^ 56
        + g.inner.getD (loc * 8 + 1) 0 * 2 ^ 48
        + g.inner.getD (loc * 8 + 2) 0 * 2 ^ 40
        + g.inner.getD (loc * 8 + 3) 0 * 2 ^ 32
        + g.inner.getD (loc * 8 + 4) 0 * 2 ^ 24
        + g.inner.getD (loc * 8 + 5) 0 * 2 ^ 16
        + g.inner.getD (loc * 8 + 6) 0 * 2 ^ 8
        + g.inner.getD (loc * 8 + 7) 0)) ∧
    (∀ (g : Genes) (loc : Nat), (∀ b ∈ g.inner, b < 256) →
      loc * 16 + 16 ≤ g.inner.length → g.inner.length ≤ W →
      Genes.g128 g loc = some (g.inner.getD (loc * 16) 0 * 2 ^ 120
        + g.inner.getD (loc * 16 + 1) 0 * 2 ^ 112
        + g.inner.getD (loc * 16 + 2) 0 * 2 ^ 104
        + g.inner.getD (loc * 16 + 3) 0 * 2 ^ 96
        + g.inner.getD (loc * 16 + 4) 0 * 2 ^ 88
        + g.inner.getD (loc * 16 + 5) 0 * 2 ^ 80
        + g.inner.getD (loc * 16 + 6) 0 * 2 ^ 72
        + g.inner.getD (loc * 16 + 7) 0 * 2 ^ 64
        + g.inner.getD (loc * 16 + 8) 0 * 2 ^ 56
        + g.inner.getD (loc * 16 + 9) 0 * 2 ^ 48
        + g.inner.getD (loc * 16 + 10) 0 * 2 ^ 40
        + g.inner.getD (loc * 16 + 11) 0 * 2 ^ 32
        + g.inner.getD (loc * 16 + 12) 0 * 2 ^ 24
        + g.inner.getD (loc * 16 + 13) 0 * 2 ^ 16
        + g.inner.getD (loc * 16 + 14) 0 * 2 ^ 8
        + g.inner.getD (loc * 16 + 15) 0)) :=
  ⟨⟨by decide, by decide, by decide⟩, g8_decode, g16_decode, g32_decode,
    g64_decode, g128_decode⟩

/-- Witness for C9: the general 32-bit decode applied to the concrete
example buffer. -/
theorem read_big_endian_decode_concrete :
    Genes.g32 exBuf 0 = some 0xDEADBEEF := by
  have h := read_big_endian_decode.2.2.2.1 exBuf 0 (by decide) (by decide) (by decide)
  simpa using h

end GenesLib

namespace GenesLib

/-! ### The replenish loop: divergence, termination, frame, length -/

/-- With `keep = 1` every draw is `0`, so the parent-resampling loop never
exits: `none` for every fuel. -/
theorem resampleLoop_keep_one (nats : Nat → Nat) (ni fuel : Nat) :
    resampleLoop 1 0 nats ni fuel = none := by
  induction fuel generalizing ni with
  | zero => rfl
  | succ fuel ih =>
    unfold resampleLoop
    simp only [Nat.mod_one, if_pos rfl]
    exact ih (ni + 1)

/-- With `keep = 1` and at least one slot to refill, the whole replenish
loop diverges. -/
theorem replenishLoop_keep_one (nbits : Nat) (nats : Nat → Nat) (coins : Nat → Bool)
    (fuel : Nat) (idxs : List Nat) (hne : idxs ≠ []) (pop : List Individual) (ni ci : Nat) :
    replenishLoop nbits 1 nats coins fuel idxs pop ni ci = none := by
  cases idxs with
  | nil => exact absurd rfl hne
  | cons idx rest =>
    unfold replenishLoop
    rw [if_neg (by omega)]
    simp only [Nat.mod_one, resampleLoop_keep_one]

/-- A population whose `keep = len / 2` is `1` (sizes 2 and 3) makes
`step` diverge, whatever the RNG produces and whatever the fuel. -/
theorem stepPop_keep_one (f : Genes → Int) (nbits : Nat) (pop : List Individual)
    (nats : Nat → Nat) (coins : Nat → Bool) (ni ci fuel : Nat)
    (hlen : pop.length / 2 = 1) :
    stepPop f nbits pop nats coins ni ci fuel = none := by
  unfold stepPop
  rw [hlen]
  refine replenishLoop_keep_one _ _ _ _ _ ?_ _ _ _
  have h : (List.range' 1 (pop.length - 1)).length = pop.length - 1 :=
    List.length_range' _ _ _
  intro hnil
  rw [hnil] at h
  simp at h
  omega

theorem consecutive_mod_ne (keep ni : Nat) (hk : 2 ≤ keep) :
    (ni + 1) % keep ≠ ni % keep := by
  have h1 : (ni + 1) % keep = (ni % keep + 1) % keep := by
    conv_lhs => rw [Nat.add_mod, Nat.mod_eq_of_lt (show 1 < keep by omega)]
  have hr : ni % keep < keep := Nat.mod_lt _ (by omega)
  by_cases hcase : ni % keep + 1 = keep
  · rw [h1, hcase, Nat.mod_self]
    omega
  · rw [h1, Nat.mod_eq_of_lt (by omega)]
    omega

/-- With consecutive `gen_range` draw values the second parent differs from
the first immediately, so one unit of fuel suffices. -/
theorem resampleLoop_id_succeeds (keep ni fuel : Nat) (hk : 2 ≤ keep) :
    resampleLoop keep (ni % keep) (fun k => k) (ni + 1) (fuel + 1)
      = some ((ni + 1) % keep, ni + 2) := by
  unfold resampleLoop
  simp only []
  rw [if_neg (consecutive_mod_ne keep ni hk)]

end GenesLib

namespace GenesLib

theorem length_scorePop (f : Genes → Int) (pop : List Individual) :
    (scorePop f pop).length = pop.length := List.length_map _ _

theorem length_sortPop (pop : List Individual) :
    (sortPop pop).length = pop.length :=
  (List.perm_insertionSort scoreLE pop).length_eq

/-- The replenish loop never changes the population's length. -/
theorem replenishLoop_length (nbits keep : Nat) (nats : Nat → Nat) (coins : Nat → Bool)
    (fuel : Nat) :
    ∀ (idxs : List Nat) (pop : List Individual) (ni ci : Nat)
      (out : List Individual × Nat × Nat),
      replenishLoop nbits keep nats coins fuel idxs pop ni ci = some out →
      out.1.length = pop.length := by
  intro idxs
  induction idxs with
  | nil =>
    intro pop ni ci out h
    unfold replenishLoop at h
    cases h
    rfl
  | cons idx rest ih =>
    intro pop ni ci out h
    unfold replenishLoop at h
    by_cases hk : keep = 0
    · rw [if_pos hk] at h
      cases h
    · rw [if_neg hk] at h
      simp only [] at h
      split at h
      · exact absurd h (by simp)
      · split at h
        · have := ih _ _ _ _ h
          rwa [List.length_set] at this
        · exact absurd h (by simp)

/-- The replenish loop writes only to the slots it is given: when every
index is `≥ k`, the first `k` entries are untouched. -/
theorem replenishLoop_take (nbits keep : Nat) (nats : Nat → Nat) (coins : Nat → Bool)
    (fuel k : Nat) :
    ∀ (idxs : List Nat) (pop : List Individual) (ni ci : Nat)
      (out : List Individual × Nat × Nat),
      replenishLoop nbits keep nats coins fuel idxs pop ni ci = some out →
      (∀ i ∈ idxs, k ≤ i) →
      out.1.take k = pop.take k := by
  intro idxs
  induction idxs with
  | nil =>
    intro pop ni ci out h hk
    unfold replenishLoop at h
    cases h
    rfl
  | cons idx rest ih =>
    intro pop ni ci out h hk
    unfold replenishLoop at h
    by_cases hk0 : keep = 0
    · rw [if_pos hk0] at h
      cases h
    · rw [if_neg hk0] at h
      simp only [] at h
      split at h
      · exact absurd h (by simp)
      · split at h
        · have hrec := ih _ _ _ _ h (fun i hi => hk i (List.mem_cons_of_mem _ hi))
          rw [hrec, List.set_take, List.set_eq_of_length_le (by
            rw [List.length_take]
            have hik := hk idx (List.mem_cons_self _ _)
            omega)]
        · exact absurd h (by simp)

end GenesLib

namespace GenesLib

theorem wiped_length (f : Genes → Int) (pop : List Individual) :
    ((sortPop (scorePop f pop)).take (pop.length / 2)
      ++ ((sortPop (scorePop f pop)).drop (pop.length / 2)).map wipeInd).length
      = pop.length := by
  rw [List.length_append, List.length_take, List.length_map, List.length_drop,
    length_sortPop, length_scorePop]
  omega

/-- With consecutive draw values and `keep ≥ 2` the replenish loop
succeeds: each resampling exits on its first redraw. -/
theorem replenishLoop_id_succeeds (nbits keep : Nat) (coins : Nat → Bool) (fuel : Nat)
    (hk : 2 ≤ keep) :
    ∀ (idxs : List Nat) (pop : List Individual) (ni ci : Nat),
      keep ≤ pop.length → (∀ i ∈ idxs, i < pop.length) →
      (replenishLoop nbits keep (fun k => k) coins (fuel + 1) idxs pop ni ci).isSome := by
  intro idxs
  induction idxs with
  | nil =>
    intro pop ni ci h1 h2
    unfold replenishLoop
    rfl
  | cons idx rest ih =>
    intro pop ni ci h1 h2
    unfold replenishLoop
    rw [if_neg (by omega)]
    simp only []
    rw [resampleLoop_id_succeeds keep ni fuel hk]
    simp only []
    have hp1 : ni % keep < pop.length := lt_of_lt_of_le (Nat.mod_lt _ (by omega)) h1
    have hp2 : (ni + 1) % keep < pop.length := lt_of_lt_of_le (Nat.mod_lt _ (by omega)) h1
    have hidx : idx < pop.length := h2 idx (List.mem_cons_self _ _)
    rw [List.getElem?_eq_getElem hp1, List.getElem?_eq_getElem hp2,
      List.getElem?_eq_getElem hidx]
    simp only []
    apply ih
    · rwa [List.length_set]
    · intro i hi
      rw [List.length_set]
      exact h2 i (List.mem_cons_of_mem _ hi)

/-- With consecutive draw values, one unit of resample fuel per slot makes
`step` succeed whenever `keep = len / 2 ≥ 2`, i.e. population size ≥ 4. -/
theorem stepPop_id_isSome (f : Genes → Int) (nbits : Nat) (pop : List Individual)
    (coins : Nat → Bool) (ni ci fuel : Nat) (hk : 2 ≤ pop.length / 2) :
    (stepPop f nbits pop (fun k => k) coins ni ci (fuel + 1)).isSome := by
  unfold stepPop
  apply replenishLoop_id_succeeds _ _ _ _ hk
  · rw [wiped_length]
    exact Nat.div_le_self _ _
  · intro i hi
    rw [wiped_length]
    obtain ⟨j, hj, rfl⟩ := List.mem_range'.mp hi
    omega

end GenesLib

namespace GenesLib

/-- C2 (amended): the replenish loop's termination is governed by
`keep = floor(len / 2)`, not by `len ≥ 2`.  (a) Whenever `keep = 1`
(population sizes 2 and 3, which construction does not reject), `step`
diverges for every RNG stream and every fuel.  (b) Whenever `keep ≥ 2`
(size ≥ 4), `step` terminates as soon as the redraw differs — e.g. with
consecutive `gen_range` draw values one redraw per slot suffices. -/
theorem step_termination_characterization :
    (∀ (f : Genes → Int) (nbits : Nat) (pop : List Individual) (nats : Nat → Nat)
        (coins : Nat → Bool) (ni ci fuel : Nat), pop.length / 2 = 1 →
        stepPop f nbits pop nats coins ni ci fuel = none) ∧
    (∀ (f : Genes → Int) (nbits : Nat) (pop : List Individual) (coins : Nat → Bool)
        (ni ci fuel : Nat), 2 ≤ pop.length / 2 →
        (stepPop f nbits pop (fun k => k) coins ni ci (fuel + 1)).isSome) :=
  ⟨fun f nbits pop nats coins ni ci fuel h =>
      stepPop_keep_one f nbits pop nats coins ni ci fuel h,
    fun f nbits pop coins ni ci fuel h =>
      stepPop_id_isSome f nbits pop coins ni ci fuel h⟩

/-- Counterexample to C2 as stated: the two-individual population `exPop`
survives construction (which checks nothing), yet `step` on it never
terminates — `none` for every fuel, here with the all-zero draw stream
(with `keep = 1`, `gen_range(0..1)` can return nothing but `0`). -/
theorem step_size_two_never_terminates :
    ¬ ∃ fuel : Nat,
      (stepPop exScore 8 exPop (fun _ => 0) (fun _ => false) 0 0 fuel).isSome := by
  rintro ⟨fuel, h⟩
  rw [stepPop_keep_one exScore 8 exPop (fun _ => 0) (fun _ => false) 0 0 fuel
    (by decide)] at h
  exact absurd h (by simp)

/-- Witness for C2's amended theorem: sizes 2 and 4 instantiated. -/
theorem step_termination_concrete :
    stepPop exScore 8 exPop (fun _ => 0) (fun _ => false) 0 0 7 = none ∧
    (stepPop fhead 8 pop4c (fun k => k) (fun _ => false) 0 0 2).isSome :=
  ⟨step_termination_characterization.1 exScore 8 exPop (fun _ => 0) (fun _ => false)
      0 0 7 (by decide),
    step_termination_characterization.2 fhead 8 pop4c (fun _ => false) 0 0 1 (by decide)⟩

/-- C3 (amended): construction never fails — `GeneticOptimizer::new`
validates nothing.  It always returns an optimizer with exactly `size`
individuals, the mutation rate stored verbatim (no range check), every
individual scored `0` with an `n / 8`-byte genome. -/
theorem new_never_fails (size n : Nat) (rate : ℚ) (bytes : Nat → Nat) :
    (GeneticOptimizer.new size n rate bytes).population.length = size ∧
    (GeneticOptimizer.new size n rate bytes).mutationRate = rate ∧
    ∀ ind ∈ (GeneticOptimizer.new size n rate bytes).population,
      ind.score = 0 ∧ ind.genes.inner.length = n / 8 := by
  refine ⟨by simp [GeneticOptimizer.new], rfl, ?_⟩
  intro ind hind
  simp only [GeneticOptimizer.new, List.mem_map, List.mem_range] at hind
  obtain ⟨i, _, rfl⟩ := hind
  exact ⟨rfl, by simp [Genes.newWithGenes]⟩

/-- Counterexample to C3 as stated: constructing with population size 1
and mutation rate 1.5 — and with size 0 and rate -0.1 — succeeds; there is
no `InvalidConfiguration` path anywhere in the code. -/
theorem new_accepts_invalid_config :
    (GeneticOptimizer.new 1 8 (3 / 2 : ℚ) (fun _ => 0)).population.length = 1 ∧
    (GeneticOptimizer.new 1 8 (3 / 2 : ℚ) (fun _ => 0)).mutationRate = 3 / 2 ∧
    (GeneticOptimizer.new 0 8 (-(1 / 10) : ℚ) (fun _ => 0)).population.length = 0 := by
  refine ⟨rfl, rfl, rfl⟩

/-- Witness for C3's amended theorem at a concrete configuration. -/
theorem new_never_fails_concrete :
    (GeneticOptimizer.new 2 8 (1 / 20 : ℚ) (fun k => k)).population.length = 2 :=
  (new_never_fails 2 8 (1 / 20) (fun k => k)).1

end GenesLib

namespace GenesLib

theorem stepPop_length (f : Genes → Int) (nbits : Nat) (pop : List Individual)
    (nats : Nat → Nat) (coins : Nat → Bool) (ni ci fuel : Nat)
    (out : List Individual × Nat × Nat)
    (h : stepPop f nbits pop nats coins ni ci fuel = some out) :
    out.1.length = pop.length := by
  unfold stepPop at h
  have h2 := replenishLoop_length _ _ _ _ _ _ _ _ _ _ h
  rwa [wiped_length] at h2

theorem evolvePop_length (f : Genes → Int) (nbits : Nat) (nats : Nat → Nat)
    (coins : Nat → Bool) (fuel : Nat) :
    ∀ (epochs : Nat) (pop : List Individual) (ni ci : Nat)
      (out : List Individual × Nat × Nat),
      evolvePop f nbits nats coins fuel epochs pop ni ci = some out →
      out.1.length = pop.length := by
  intro epochs
  induction epochs with
  | zero =>
    intro pop ni ci out h
    unfold evolvePop at h
    cases h
    rfl
  | succ e ih =>
    intro pop ni ci out h
    unfold evolvePop at h
    split at h
    · next pop2 ni2 ci2 heq =>
      have h2 := ih _ _ _ _ h
      rw [h2]
      exact stepPop_length f nbits pop nats coins ni ci fuel _ heq
    · cases h

/-- C8: the population size is invariant under `step()` and under any
number of `evolve` epochs. -/
theorem population_size_invariant :
    (∀ (f : Genes → Int) (opt : GeneticOptimizer) (nats : Nat → Nat)
        (coins : Nat → Bool) (ni ci fuel : Nat) (out : GeneticOptimizer × Nat × Nat),
        GeneticOptimizer.step f opt nats coins ni ci fuel = some out →
        out.1.population.length = opt.population.length) ∧
    (∀ (f : Genes → Int) (opt : GeneticOptimizer) (epochs : Nat) (nats : Nat → Nat)
        (coins : Nat → Bool) (ni ci fuel : Nat) (out : GeneticOptimizer × Nat × Nat),
        GeneticOptimizer.evolve f opt epochs nats coins ni ci fuel = some out →
        out.1.population.length = opt.population.length) := by
  constructor
  · intro f opt nats coins ni ci fuel out h
    unfold GeneticOptimizer.step at h
    split at h
    · next pop2 ni2 ci2 heq =>
      cases h
      exact stepPop_length f opt.n opt.population nats coins ni ci fuel _ heq
    · cases h
  · intro f opt epochs nats coins ni ci fuel out h
    unfold GeneticOptimizer.evolve at h
    split at h
    · next pop2 ni2 ci2 heq =>
      cases h
      exact evolvePop_length f opt.n nats coins fuel epochs opt.population ni ci _ heq
    · cases h

/-- Witness for C8: one concrete `step` on a size-4 optimizer. -/
theorem population_size_invariant_concrete :
    GeneticOptimizer.step fhead opt4c (fun k => k) (fun _ => false) 0 0 2
      = some (opt4cAfter, 4, 32) ∧
    (opt4cAfter, (4 : Nat), (32 : Nat)).1.population.length
      = opt4c.population.length :=
  ⟨by decide,
    population_size_invariant.1 fhead opt4c (fun k => k) (fun _ => false) 0 0 2
      (opt4cAfter, 4, 32) (by decide)⟩

end GenesLib

namespace GenesLib

/-- C7: after one `step` with pairwise-distinct fresh scores, the first
`floor(len * 0.5)` slots are exactly the best-scoring pre-step candidates
(a sub-permutation of the scored pre-step population, genomes included,
hence bit-for-bit untouched by replenish and mutate), ordered strictly
ascending by fitness, and every survivor scores strictly below every
discarded candidate. -/
theorem step_selects_best_ascending_untouched
    (f : Genes → Int) (nbits : Nat) (pop : List Individual) (nats : Nat → Nat)
    (coins : Nat → Bool) (ni ci fuel : Nat) (out : List Individual × Nat × Nat)
    (hdist : (scorePop f pop).Pairwise fun a b => a.score ≠ b.score)
    (hstep : stepPop f nbits pop nats coins ni ci fuel = some out) :
    ∃ rest, (scorePop f pop).Perm (out.1.take (pop.length / 2) ++ rest) ∧
      (out.1.take (pop.length / 2)).Pairwise (fun a b => a.score < b.score) ∧
      ∀ a ∈ out.1.take (pop.length / 2), ∀ b ∈ rest, a.score < b.score := by
  unfold stepPop at hstep
  have htake := replenishLoop_take nbits (pop.length / 2) nats coins fuel
    (pop.length / 2) _ _ _ _ _ hstep (by
      intro i hi
      obtain ⟨j, hj, rfl⟩ := List.mem_range'.mp hi
      omega)
  have hL : (sortPop (scorePop f pop)).length = pop.length := by
    rw [length_sortPop, length_scorePop]
  have hfinal : out.1.take (pop.length / 2)
      = (sortPop (scorePop f pop)).take (pop.length / 2) := by
    rw [htake]
    apply List.take_left'
    rw [List.length_take, hL]
    have := Nat.div_le_self pop.length 2
    omega
  have hperm0 : (sortPop (scorePop f pop)).Perm (scorePop f pop) :=
    List.perm_insertionSort _ _
  have hsorted : (sortPop (scorePop f pop)).Pairwise scoreLE :=
    List.sorted_insertionSort _ _
  have hne : (sortPop (scorePop f pop)).Pairwise fun a b => a.score ≠ b.score :=
    (hperm0.pairwise_iff fun h => Ne.symm h).mpr hdist
  have hlt : (sortPop (scorePop f pop)).Pairwise fun a b => a.score < b.score :=
    List.Pairwise.imp₂ (fun _ _ hle hne2 => lt_of_le_of_ne hle hne2) hsorted hne
  refine ⟨(sortPop (scorePop f pop)).drop (pop.length / 2), ?_, ?_, ?_⟩
  · rw [hfinal, List.take_append_drop]
    exact hperm0.symm
  · rw [hfinal]
    exact List.Pairwise.sublist (List.take_sublist _ _) hlt
  · intro a ha b hb
    rw [hfinal] at ha
    have hsplit : ((sortPop (scorePop f pop)).take (pop.length / 2)
        ++ (sortPop (scorePop f pop)).drop (pop.length / 2)).Pairwise
        (fun a b => a.score < b.score) := by
      rw [List.take_append_drop]
      exact hlt
    exact (List.pairwise_append.mp hsplit).2.2 a ha b hb

/-- Witness for C7 on the concrete size-4 population `pop4c` (fresh
scores 3, 1, 4, 2): after the concrete step the survivors are the
score-1 and score-2 candidates in that order. -/
theorem step_selects_best_concrete :
    (scorePop fhead pop4c).Pairwise (fun a b => a.score ≠ b.score) ∧
    stepPop fhead 8 pop4c (fun k => k) (fun _ => false) 0 0 2
      = some (pop4cAfter, 4, 32) ∧
    ∃ rest, (scorePop fhead pop4c).Perm
        ((pop4cAfter, (4 : Nat), (32 : Nat)).1.take (pop4c.length / 2) ++ rest) ∧
      ((pop4cAfter, (4 : Nat), (32 : Nat)).1.take (pop4c.length / 2)).Pairwise
        (fun a b => a.score < b.score) ∧
      ∀ a ∈ (pop4cAfter, (4 : Nat), (32 : Nat)).1.take (pop4c.length / 2),
        ∀ b ∈ rest, a.score < b.score :=
  ⟨by decide, by decide,
    step_selects_best_ascending_untouched fhead 8 pop4c (fun k => k) (fun _ => false)
      0 0 2 (pop4cAfter, 4, 32) (by decide) (by decide)⟩

end GenesLib
